import Mathlib

/-!
Verification development for the `rollgroups` Foundry VTT module
(`scripts/module.mjs`). The JavaScript helpers are shallowly embedded as
executable Lean definitions: formulas are lists of characters, machine
numbers are `Nat`/`Int`, nullable values are `Option`, and code that may
throw returns `Except`. Each definition is translated directly from the
source file; doc comments cite the JS symbol being modelled.
-/

namespace RollGroups

/-- Character class of the JavaScript regex escape `\s` (ECMAScript
WhiteSpace and LineTerminator characters), by code point. -/
def isJsSpace (c : Char) : Bool :=
  let n := c.toNat
  n == 9 || n == 10 || n == 11 || n == 12 || n == 13 || n == 32 ||
  n == 0xa0 || n == 0x1680 || (0x2000 ≤ n && n ≤ 0x200a) ||
  n == 0x2028 || n == 0x2029 || n == 0x202f || n == 0x205f ||
  n == 0x3000 || n == 0xfeff

/-- Character class of the JavaScript regex escape `\d` (ASCII digits). -/
def jsDigit (c : Char) : Bool :=
  48 ≤ c.toNat && c.toNat ≤ 57

/-- ECMAScript LineTerminator characters: the regex `.` (without the `s`
flag) matches every character except these. -/
def isLineTerm (c : Char) : Bool :=
  c.toNat == 10 || c.toNat == 13 || c.toNat == 0x2028 || c.toNat == 0x2029

/-- Numeric value of a digit string, as computed by JS `Number` on an
all-digit string (decimal, leading zeros allowed). -/
def digitsToNat (l : List Char) : Nat :=
  l.foldl (fun a c => 10 * a + (c.toNat - 48)) 0

/-- Matching of the anchored JS regex `/^(\s*)(\d+)\s*d\s*(\d+)(.*)$/i`
from `Module.scaleDiceFormula`, as a deterministic maximal-munch parser
(every adjacent pair of sub-patterns has disjoint first-character classes,
so greedy matching needs no backtracking). Returns the captured groups
`(leading, count digits, side digits, rest)` on success. The trailing
`(.*)$` requires the remainder to contain no LineTerminator, because `.`
cannot match one and `$` (without the `m` flag) only matches at the very
end of the input. -/
def diceMatch (s : List Char) :
    Option (List Char × List Char × List Char × List Char) :=
  let w := s.takeWhile isJsSpace
  let s1 := s.dropWhile isJsSpace
  let n := s1.takeWhile jsDigit
  let s2 := s1.dropWhile jsDigit
  if n.isEmpty then none else
  match s2.dropWhile isJsSpace with
  | [] => none
  | c :: s4 =>
    if c == 'd' || c == 'D' then
      let s5 := s4.dropWhile isJsSpace
      let m := s5.takeWhile jsDigit
      let r := s5.dropWhile jsDigit
      if m.isEmpty then none
      else if r.any isLineTerm then none
      else some (w, n, m, r)
    else none

/-- Model of `Module.scaleDiceFormula(formula, add)`. The `add` argument
is `Option Int`: `none` stands for the nullish JS values `null` and
`undefined`, which (like `0`) are falsy and short-circuit the rewrite.
On a regex match the result is rebuilt from the template literal
`leading + newCount + "d" + sides + rest`; otherwise the offset is
appended as `formula + " + " + add`. -/
def scaleDiceFormula (formula : List Char) (add : Option Int) : List Char :=
  match add with
  | none => formula
  | some a =>
    if a = 0 then formula
    else
      match diceMatch formula with
      | some (w, n, m, r) =>
        w ++ (toString ((digitsToNat n : Int) + a)).toList ++ ('d' :: m) ++ r
      | none => formula ++ " + ".toList ++ (toString a).toList

/-- Modelled from the spec: the property that a formula string begins with
a leading dice term, written `NdM` with a dice count, the letter d in
either case, and a die size, the pieces optionally separated by
whitespace (the term itself may sit after leading whitespace). This is
the spec-side classification used by the claims about
`scaleDiceFormula`; it puts no constraint on what follows the die size. -/
def beginsWithDiceTerm (s : List Char) : Bool :=
  let s1 := s.dropWhile isJsSpace
  let n := s1.takeWhile jsDigit
  let s2 := s1.dropWhile jsDigit
  if n.isEmpty then false else
  match s2.dropWhile isJsSpace with
  | [] => false
  | c :: s4 =>
    if c == 'd' || c == 'D' then
      !((s4.dropWhile isJsSpace).takeWhile jsDigit).isEmpty
    else false

/-- Model of `Module.isNumeric(v)` (`!isNaN(Number(v))`) applied to a
stored flag value that is either a number or absent (`undefined`, whose
`Number` coercion is `NaN`). -/
def isNumericOpt : Option Int → Bool
  | none => false
  | some _ => true

/-- One entry of `item.system.damage.parts`: a damage formula and a
damage/healing type key. -/
abbrev DamagePart := List Char × String

/-- One entry of the `flags.rollgroups.config.groups` array: a label and a
list of indices into the damage parts array. The indices are stored as
the numeric values the code obtains via `Number` coercion. -/
structure RollGroup where
  label : String
  parts : List Int
deriving DecidableEq

/-- The `flags.rollgroups.config` object (`?? \x7b\x7d` defaults applied: a
missing field is the empty list, `none`, or `false`). -/
structure ModuleConfig where
  groups : List RollGroup
  versatile : Option Int
  bladeCantrip : Bool
  saves : List String
deriving DecidableEq

/-- The slice of an Item5e document the module reads: type and level,
damage parts, host-derived predicates, save data, and the module config
flags. -/
structure ItemModel where
  itemType : String
  level : Option Int
  damageParts : List DamagePart
  isVersatile : Bool
  hasDamage : Bool
  hasSave : Bool
  saveAbility : Option String
  getSaveDC : Option Int
  saveDC : Option Int
  config : ModuleConfig
deriving DecidableEq

/-- The slice of the host configuration the module reads:
`CONFIG[SYSTEM].damageTypes`, `.healingTypes` and `.abilities`
(ability key with its label), plus the localizer `game.i18n.localize`
and the system id `game.system.id`. -/
structure HostConfig where
  damageTypes : List String
  healingTypes : List String
  abilities : List (String × String)
  localize : String → String
  systemId : String

/-- Damage parts with a truthy (non-empty) formula, as computed by
`createDamageButtons`: `parts.filter(([f]) => !!f)`. -/
def validParts (item : ItemModel) : List DamagePart :=
  item.damageParts.filter (fun p => !p.1.isEmpty)

/-- One damage button produced by `createDamageButtons`: its
`data-group` index, its damage/healing/mixed classification, and the
group label rendered next to the localized caption. -/
structure DamageButton where
  group : Nat
  btype : String
  label : String
deriving DecidableEq

/-- Button construction for one group inside the `reduce` of
`Module.createDamageButtons`: every listed part index is looked up in the
filtered parts (`validParts[t]?.[1]`, `undefined` when out of range), and
the button is classified `damage` if every type is truthy and a damage
type, else `healing` if every type is truthy and a healing type, else
`mixed`. -/
def mkDamageButton (env : HostConfig) (item : ItemModel) (idx : Nat)
    (g : RollGroup) : DamageButton :=
  let vp := validParts item
  let types : List (Option String) := g.parts.map (fun t =>
    if t < 0 then none else (vp[t.toNat]?).map Prod.snd)
  let isDamage := types.all (fun o => o.elim false
    (fun ty => !ty.isEmpty && env.damageTypes.contains ty))
  let isHealing := types.all (fun o => o.elim false
    (fun ty => !ty.isEmpty && env.healingTypes.contains ty))
  let btype := if isDamage then "damage"
    else if isHealing then "healing" else "mixed"
  ⟨idx, btype, g.label⟩

/-- Model of `Module.createDamageButtons(item)`: `none` models the `null`
return (no buttons, chat card left as-is); otherwise one button per
configured group, built by the indexed `reduce`. -/
def createDamageButtons (env : HostConfig) (item : ItemModel) :
    Option (List DamageButton) :=
  if item.config.groups.length > 0 && (validParts item).length > 1 then
    some (item.config.groups.enum.map (fun p => mkDamageButton env item p.1 p.2))
  else none

/-- One saving throw button produced by `createSaveButtons`: ability key,
save DC and the label read from `CONFIG[SYSTEM].abilities[abi].label`.
The label is `none` when the lookup yields `undefined` (the template
literal then renders the string undefined), which happens when `abi` is
only an inherited Object.prototype property name of the abilities
object rather than one of its own keys. -/
structure SaveButton where
  ability : String
  dc : Int
  label : Option String
deriving DecidableEq

/-- Property names every plain JavaScript object inherits from
Object.prototype: the JS `in` operator walks the prototype chain, so
`key in obj` is true for these names on any plain object, the abilities
configuration object included. -/
def objectPrototypeKeys : List String :=
  ["constructor", "hasOwnProperty", "isPrototypeOf", "propertyIsEnumerable",
   "toLocaleString", "toString", "valueOf", "__defineGetter__",
   "__defineSetter__", "__lookupGetter__", "__lookupSetter__", "__proto__"]

/-- The filter applied to `flags.rollgroups.config.saves` inside
`Module.createSaveButtons`: keep an ability key if it differs from the
item save ability and satisfies `abi in CONFIG[SYSTEM].abilities`. The
JS `in` operator matches both the own keys of the abilities object and
the property names it inherits from Object.prototype. -/
def filteredSaves (env : HostConfig) (item : ItemModel) : List String :=
  item.config.saves.filter (fun abi =>
    decide (some abi ≠ item.saveAbility) &&
      (env.abilities.any (fun kv => kv.1 == abi) || objectPrototypeKeys.contains abi))

/-- Model of `Module.createSaveButtons(item)`: `none` models the `null`
return; otherwise one button per entry surviving the filter, with
`dc = item.getSaveDC?.() ?? item.system.save?.dc ?? 10` and the label
looked up among the own entries of the abilities object (`none` models
the `undefined` label of a key kept only through prototype
inheritance). -/
def createSaveButtons (env : HostConfig) (item : ItemModel) :
    Option (List SaveButton) :=
  if !item.hasSave then none
  else
    let saves := filteredSaves env item
    if saves.isEmpty then none
    else
      let dc := item.getSaveDC.getD (item.saveDC.getD 10)
      some (saves.map (fun abi =>
        ⟨abi, dc, (env.abilities.find? (fun kv => kv.1 == abi)).map Prod.snd⟩))

/-- Model of `Module.constructParts(item, idx)`: `none` models the branch
that shows the `ROLLGROUPS.RollGroupEmpty` host notification and returns
`false`; `some group` is the selected subset of the damage parts. The
`reduce` push loop is a `foldl` that appends matching parts, and the
`Set` of `Number`-coerced indices is the list `raw` (membership is all
that is used). -/
def constructParts (item : ItemModel) (idx : Nat) : Option (List DamagePart) :=
  let raw := ((item.config.groups[idx]?).map RollGroup.parts).getD []
  let group := item.damageParts.enum.foldl
    (fun acc p => if raw.contains ((p.1 : Nat) : Int) then acc ++ [p.2] else acc) []
  if group.isEmpty then none else some group

/-- Selection described by claim C4: the entries of the damage parts
array whose position appears in the configured parts list of group
`idx`, in the original array order. -/
def claimedSelection (item : ItemModel) (idx : Nat) : List DamagePart :=
  let raw := ((item.config.groups[idx]?).map RollGroup.parts).getD []
  (item.damageParts.enum.filter (fun p => raw.contains ((p.1 : Nat) : Int))).map Prod.snd

/-- Arguments of `Item#rollDamageGroup` (the destructured options object);
`event` and `options` are opaque tokens threaded through unchanged. -/
structure RollArgs where
  rollgroup : Nat
  critical : Bool
  event : Option Nat
  spellLevel : Option Int
  versatile : Bool
  options : Nat
deriving DecidableEq

/-- Observable outcome of `Module.rollDamageGroup`:
`plain` is the delegation `this.rollDamage(\x7bcritical, event, spellLevel,
versatile, options\x7d)` when no groups are configured; `emptyGroupNull`
is the `ROLLGROUPS.RollGroupEmpty` notification followed by `return
null`; `constructNull` is `return null` after `constructParts` returned
`false`; `groupRoll` is `clone.rollDamage(...)` on the clone carrying
the selected parts. -/
inductive GroupRollResult
  | plain (critical : Bool) (event : Option Nat) (spellLevel : Option Int)
      (versatile : Bool) (options : Nat)
  | emptyGroupNull
  | constructNull
  | groupRoll (parts : List DamagePart) (critical : Bool) (event : Option Nat)
      (spellLevel : Option Int) (versatile : Bool) (options : Nat)
deriving DecidableEq

/-- Model of `Module.rollDamageGroup` (attached to the item class). -/
def rollDamageGroup (item : ItemModel) (a : RollArgs) : GroupRollResult :=
  let group := item.config.groups
  if group.isEmpty then
    .plain a.critical a.event a.spellLevel a.versatile a.options
  else
    match (group[a.rollgroup]?).map RollGroup.parts with
    | none => .emptyGroupNull
    | some [] => .emptyGroupNull
    | some (_ :: _) =>
      match constructParts item a.rollgroup with
      | none => .constructNull
      | some parts =>
        .groupRoll parts a.critical a.event a.spellLevel a.versatile a.options

/-- The `system.details` slice of an actor read by
`WeaponPicker._scaleCantripDamage`. -/
structure ActorDetails where
  level : Option Int
  spellLevel : Option Int
deriving DecidableEq

/-- Model of `WeaponPicker._scaleCantripDamage()`: `this.cantrip` and
`this.actor` may be nullish, hence the `Option` receivers. The level is
`Number(actor?.system?.details?.level ?? actor?.system?.details?.spellLevel
?? 1)` and the increment is `Math.floor((level + 1) / 6)` (`Int.fdiv`
models the floor of the real quotient). -/
def scaleCantripDamage (cantrip : Option ItemModel) (actor : Option ActorDetails) :
    List (List Char) × Option String :=
  match cantrip.map ItemModel.damageParts with
  | some (part :: _) =>
    let level := ((actor.bind ActorDetails.level).orElse
      (fun _ => actor.bind ActorDetails.spellLevel)).getD 1
    let add := Int.fdiv (level + 1) 6
    ([scaleDiceFormula part.1 (some add)], some part.2)
  | _ => ([], none)

/-- A runtime exception raised inside a hook handler body. -/
inductive JsError
  | typeError (msg : String)
deriving DecidableEq

/-- Outcome of a registered hook handler as seen by the host:
`completed` (normal return), `logged` (an exception was caught and sent
to `console.error`), or `propagated` (an exception escaped to the host
application). -/
inductive HookOutcome (α : Type)
  | completed (value : α)
  | logged (e : JsError)
  | propagated (e : JsError)

/-- Whether a hook handler outcome is an exception that escaped to the
host application. -/
def propagates : HookOutcome α → Bool
  | .propagated _ => true
  | _ => false

/-- A handler body wrapped in `try ... catch (err) \x7b console.error(err)
\x7d`: an exception is logged, never propagated. -/
def runCaught (x : Except JsError α) : HookOutcome α :=
  match x with
  | .ok v => .completed v
  | .error e => .logged e

/-- A handler body with no surrounding try/catch: an exception escapes to
the host. -/
def runBare (x : Except JsError α) : HookOutcome α :=
  match x with
  | .ok v => .completed v
  | .error e => .propagated e

/-- A handler body wrapped in the try/catch of `manageCardButtons`, whose
catch block reads `this.ID`. The handler is registered unbound
(`Hooks.on(..., this.manageCardButtons)`), so under hook invocation
`this` is `undefined` inside the strict-mode class method and the catch
block throws its own TypeError before `console.error` can run: a body
exception is replaced by that TypeError and propagates to the host
instead of being logged. -/
def runBrokenCatch (x : Except JsError α) : HookOutcome α :=
  match x with
  | .ok v => .completed v
  | .error _ =>
    .propagated (.typeError "cannot read ID of undefined this in catch block")

/-- The parts of the pre-rendered chat card HTML (`data.content`) that
`manageCardButtons` queries: whether a plain damage button, a versatile
button, and a save button are present. -/
structure CardData where
  hasDamageButton : Bool
  hasVersatileButton : Bool
  hasSaveButton : Bool
deriving DecidableEq

/-- The mutations `manageCardButtons` applies to the card HTML: the
damage buttons that replace the plain damage button, the `data-group`
value written onto the converted versatile button, whether the blade
cantrip buttons were appended, and the extra save buttons inserted
after the save button. -/
structure CardChanges where
  damageButtons : Option (List DamageButton)
  versatileConverted : Option Int
  bladeCantripButtons : Bool
  saveButtons : Option (List SaveButton)
deriving DecidableEq

/-- Body of `Module.manageCardButtons(item, data)` (the code inside the
`try`). A nullish `data` argument makes the property read `data.content`
throw; otherwise the body only inspects and rewrites the parsed card. -/
def manageCardButtonsBody (env : HostConfig) (item : ItemModel)
    (data : Option CardData) : Except JsError CardChanges :=
  match data with
  | none => .error (.typeError "cannot read content of nullish data")
  | some d =>
    let config := item.config
    let buttons := if d.hasDamageButton then createDamageButtons env item else none
    let versatileConverted :=
      if d.hasDamageButton && buttons.isSome && isNumericOpt config.versatile
          && item.isVersatile && d.hasVersatileButton
      then config.versatile else none
    let blade := d.hasDamageButton && config.bladeCantrip
      && (item.itemType == "spell") && (item.level == some 0) && item.hasDamage
    let saveButtons :=
      match createSaveButtons env item with
      | some sb => if d.hasSaveButton then some sb else none
      | none => none
    .ok ⟨buttons, versatileConverted, blade, saveButtons⟩

/-- Model of the registered `preDisplayCard` handler
`Module.manageCardButtons`: its body runs inside a try/catch, but the
catch block itself faults on `this.ID` under unbound hook invocation
(`runBrokenCatch`), so a throwing body still ends in a propagated
TypeError. -/
def manageCardButtons (env : HostConfig) (item : ItemModel)
    (data : Option CardData) : HookOutcome CardChanges :=
  runBrokenCatch (manageCardButtonsBody env item data)

/-- The `html` argument of the `renderItemSheet` hook, as far as the
normalizer inside `createConfigButton` distinguishes it: nullish, a raw
element, a jQuery wrapper, an array wrapper, or a value with no
`querySelector` at all. The two booleans record whether the sheet HTML
holds an `.add-damage` anchor and a save scaling input. -/
inductive SheetHtml
  | nullish
  | element (hasAddDamage hasSaveScaling : Bool)
  | jqueryOf (hasAddDamage hasSaveScaling : Bool)
  | emptyJquery
  | arrayOf (hasAddDamage hasSaveScaling : Bool)
  | unrecognized
deriving DecidableEq

/-- The IIFE normalizer at the top of `Module.createConfigButton`:
returns the root element, or `none` for the `return null` cases (a
nullish argument, an empty jQuery wrapper, or a value without
`querySelector`). -/
def normalizeHtml : SheetHtml → Option (Bool × Bool)
  | .nullish => none
  | .element a s => some (a, s)
  | .jqueryOf a s => some (a, s)
  | .emptyJquery => none
  | .arrayOf a s => some (a, s)
  | .unrecognized => none

/-- Which config links `createConfigButton` injected: the group config
link after `.add-damage` and the save config link after the save
scaling input. -/
structure ConfigButtons where
  groupConfig : Bool
  saveConfig : Bool
deriving DecidableEq

/-- Body of `Module.createConfigButton(sheet, html)` (the code inside the
`try`): normalize the html argument, no-op when normalization fails,
otherwise inject a link next to each anchor that is present. -/
def createConfigButtonBody (html : SheetHtml) : Except JsError ConfigButtons :=
  match normalizeHtml html with
  | none => .ok ⟨false, false⟩
  | some (a, s) => .ok ⟨a, s⟩

/-- Model of the registered `renderItemSheet` handler
`Module.createConfigButton`: its body runs inside try/catch. -/
def createConfigButton (html : SheetHtml) : HookOutcome ConfigButtons :=
  runCaught (createConfigButtonBody html)

/-- The `html` argument of the `renderChatMessage` hook as
`createChatLogListeners` sees it: nullish (guarded by `if (!html)
return`), a DOM element carrying some number of rollgroup damage,
blade cantrip and save buttons, or a truthy object with no
`querySelectorAll` method (such as a jQuery wrapper). -/
inductive ChatHtml
  | nullish
  | element (nDamage nBlade nSave : Nat)
  | jqueryLike
deriving DecidableEq

/-- Body of `Module.createChatLogListeners(message, html)`: the early
return on nullish html, then three `querySelectorAll` calls that attach
the click listeners. Calling `querySelectorAll` on an object that does
not have it throws a TypeError. -/
def createChatLogListenersBody (html : ChatHtml) : Except JsError (Nat × Nat × Nat) :=
  match html with
  | .nullish => .ok (0, 0, 0)
  | .element a b c => .ok (a, b, c)
  | .jqueryLike => .error (.typeError "querySelectorAll is not a function")

/-- Model of the registered `renderChatMessage` handler
`Module.createChatLogListeners`: unlike the other handlers its body has
no surrounding try/catch, so an exception escapes to the host. The
completed value counts the listeners attached per selector. -/
def createChatLogListeners (html : ChatHtml) : HookOutcome (Nat × Nat × Nat) :=
  runBare (createChatLogListenersBody html)

/-- The slice of an item read by `variantDamageLabels`: its name, the
damage types of its derived damage label, and `item.labels?.damageTypes`. -/
structure VItem where
  name : String
  derivedDamageTypes : List String
  labelsDamageTypes : Option String
deriving DecidableEq

/-- Body of `Module.variantDamageLabels(item, config)` (the code inside
the `try`): classify the set of damage types, build the title and
flavor strings that are merged into the roll configuration. -/
def variantDamageLabelsBody (env : HostConfig) (item : VItem) :
    Except JsError (String × String) :=
  let labels := item.derivedDamageTypes.dedup
  let isTemp := labels.length == 1 && labels.contains "temphp"
  let sys := env.systemId.toUpper
  let str := if labels.all (fun t => env.healingTypes.contains t)
    then sys ++ ".Healing" else sys ++ ".DamageRoll"
  let title := item.name ++ " - " ++ env.localize str
  let flavor :=
    if isTemp then title ++ " (" ++ env.localize (sys ++ ".Temp") ++ ")"
    else match item.labelsDamageTypes with
      | some s => if s.length > 0 then title ++ " (" ++ s ++ ")" else title
      | none => title
  .ok (title, flavor)

/-- Model of the registered `preRollDamage` handler
`Module.variantDamageLabels`: the nullish-item guard sits before the
`try`, the rest of the body runs inside try/catch. -/
def variantDamageLabels (env : HostConfig) (item : Option VItem) :
    HookOutcome (Option (String × String)) :=
  match item with
  | none => .completed none
  | some it => runCaught ((variantDamageLabelsBody env it).map some)

theorem takeWhile_append_all (p : α → Bool) (l₁ l₂ : List α)
    (h₁ : ∀ a ∈ l₁, p a = true)
    (h₂ : ∀ b t, l₂ = b :: t → p b = false) :
    (l₁ ++ l₂).takeWhile p = l₁ ∧ (l₁ ++ l₂).dropWhile p = l₂ := by
  induction l₁ with
  | nil =>
    cases l₂ with
    | nil => simp
    | cons b t => simp [List.takeWhile_cons, List.dropWhile_cons, h₂ b t rfl]
  | cons a l ih =>
    have ha := h₁ a (List.mem_cons_self a l)
    have hrec := ih (fun x hx => h₁ x (List.mem_cons_of_mem a hx))
    simp [List.takeWhile_cons, List.dropWhile_cons, ha, hrec.1, hrec.2]

theorem jsDigit_not_space {c : Char} (h : jsDigit c = true) : isJsSpace c = false := by
  simp [jsDigit] at h
  simp [isJsSpace]
  omega

theorem jsSpace_not_digit {c : Char} (h : isJsSpace c = true) : jsDigit c = false := by
  simp [isJsSpace] at h
  simp [jsDigit]
  omega

theorem diceMatch_structured
    (w ds u v ms r : List Char) (c : Char)
    (hw : ∀ x ∈ w, isJsSpace x = true)
    (hds : ds ≠ []) (hdsd : ∀ x ∈ ds, jsDigit x = true)
    (hu : ∀ x ∈ u, isJsSpace x = true)
    (hv : ∀ x ∈ v, isJsSpace x = true)
    (hc : c = 'd' ∨ c = 'D')
    (hms : ms ≠ []) (hmsd : ∀ x ∈ ms, jsDigit x = true)
    (hr : r.any isLineTerm = false)
    (hrd : r.head?.all (fun b => !jsDigit b) = true) :
    diceMatch (w ++ (ds ++ (u ++ (c :: (v ++ (ms ++ r)))))) = some (w, ds, ms, r) := by
  have hrd' : ∀ b t, r = b :: t → jsDigit b = false := by
    intro b t hbt
    rw [hbt] at hrd
    simpa using hrd
  obtain ⟨d0, ds₁, rfl⟩ := List.exists_cons_of_ne_nil hds
  obtain ⟨m0, ms₁, rfl⟩ := List.exists_cons_of_ne_nil hms
  have hd0 : jsDigit d0 = true := hdsd d0 (by simp)
  have hm0 : jsDigit m0 = true := hmsd m0 (by simp)
  have hcd : (c == 'd' || c == 'D') = true := by
    rcases hc with rfl | rfl <;> decide
  have hcs : isJsSpace c = false := by
    rcases hc with rfl | rfl <;> decide
  have hcdg : jsDigit c = false := by
    rcases hc with rfl | rfl <;> decide
  have step1 := takeWhile_append_all isJsSpace w
      ((d0 :: ds₁) ++ (u ++ (c :: (v ++ ((m0 :: ms₁) ++ r))))) hw
      (by
        intro b t hbt
        rw [List.cons_append] at hbt
        injection hbt with h1 _
        rw [← h1]
        exact jsDigit_not_space hd0)
  have step2 := takeWhile_append_all jsDigit (d0 :: ds₁)
      (u ++ (c :: (v ++ ((m0 :: ms₁) ++ r)))) hdsd
      (by
        intro b t hbt
        cases u with
        | nil =>
          rw [List.nil_append] at hbt
          injection hbt with h1 _
          rw [← h1]
          exact hcdg
        | cons u0 u₁ =>
          rw [List.cons_append] at hbt
          injection hbt with h1 _
          rw [← h1]
          exact jsSpace_not_digit (hu u0 (by simp)))
  have step3 := takeWhile_append_all isJsSpace u
      (c :: (v ++ ((m0 :: ms₁) ++ r))) hu
      (by
        intro b t hbt
        injection hbt with h1 _
        rw [← h1]
        exact hcs)
  have step4 := takeWhile_append_all isJsSpace v ((m0 :: ms₁) ++ r) hv
      (by
        intro b t hbt
        rw [List.cons_append] at hbt
        injection hbt with h1 _
        rw [← h1]
        exact jsDigit_not_space hm0)
  have step5 := takeWhile_append_all jsDigit (m0 :: ms₁) r hmsd hrd'
  simp only [diceMatch, step1.1, step1.2, step2.1, step2.2, step3.2, step4.2,
    step5.1, step5.2, List.isEmpty_cons, hcd, hr]
  simp

/-- C1 counterexample: the formula "1 d8+2" begins with a leading dice
term (count 1, whitespace, the letter d, size 8), yet rewriting with
offset 1 does not leave everything except the count unchanged: the code
returns "2d8+2", dropping the whitespace that separated the count from
the letter d, where the claim requires "2 d8+2". -/
theorem c1_counterexample :
    scaleDiceFormula "1 d8+2".toList (some 1) = "2d8+2".toList ∧
    scaleDiceFormula "1 d8+2".toList (some 1) ≠ "2 d8+2".toList := by
  decide

/-- C1 (amended): for every formula beginning with a leading dice term,
decomposed as leading whitespace `w`, count digits `ds`, whitespace `u`,
the letter d in either case, whitespace `v`, size digits `ms`, and a
remainder `r` that contains no line terminator and does not start with a
digit, and every nonzero offset `a`, `scaleDiceFormula` rewrites the
leading dice term to the new count `N + a` followed by a lowercase
letter d and the original size digits, preserving the leading
whitespace and the remainder: the whitespace inside the term is
discarded and an uppercase D is lowercased, everything else is kept. -/
theorem c1_amended
    (w ds u v ms r : List Char) (c : Char) (a : Int)
    (hw : ∀ x ∈ w, isJsSpace x = true)
    (hds : ds ≠ []) (hdsd : ∀ x ∈ ds, jsDigit x = true)
    (hu : ∀ x ∈ u, isJsSpace x = true)
    (hv : ∀ x ∈ v, isJsSpace x = true)
    (hc : c = 'd' ∨ c = 'D')
    (hms : ms ≠ []) (hmsd : ∀ x ∈ ms, jsDigit x = true)
    (hr : r.any isLineTerm = false)
    (hrd : r.head?.all (fun b => !jsDigit b) = true)
    (ha : a ≠ 0) :
    scaleDiceFormula (w ++ (ds ++ (u ++ (c :: (v ++ (ms ++ r)))))) (some a)
      = w ++ (toString ((digitsToNat ds : Int) + a)).toList ++ ('d' :: ms) ++ r := by
  have hm := diceMatch_structured w ds u v ms r c hw hds hdsd hu hv hc hms hmsd hr hrd
  simp only [scaleDiceFormula, hm, if_neg ha]

/-- C1 witness: the amended theorem applied to the formula "1 D8+2" with
offset 1, which rewrites to "2d8+2". -/
theorem c1_witness :
    ((∀ x ∈ ([] : List Char), isJsSpace x = true) ∧
     (['1'] : List Char) ≠ [] ∧ (∀ x ∈ (['1'] : List Char), jsDigit x = true) ∧
     (∀ x ∈ ([' '] : List Char), isJsSpace x = true) ∧
     (∀ x ∈ ([] : List Char), isJsSpace x = true) ∧
     ('D' = 'd' ∨ 'D' = 'D') ∧
     (['8'] : List Char) ≠ [] ∧ (∀ x ∈ (['8'] : List Char), jsDigit x = true) ∧
     ("+2".toList.any isLineTerm = false) ∧
     ("+2".toList.head?.all (fun b => !jsDigit b) = true) ∧
     (1 : Int) ≠ 0) ∧
    scaleDiceFormula ([] ++ (['1'] ++ ([' '] ++ ('D' :: ([] ++ (['8'] ++ "+2".toList)))))) (some 1)
      = [] ++ (toString ((digitsToNat ['1'] : Int) + 1)).toList ++ ('d' :: ['8']) ++ "+2".toList :=
  ⟨by decide,
   c1_amended [] ['1'] [' '] [] ['8'] ("+2".toList) 'D' 1 (by decide) (by decide)
     (by decide) (by decide) (by decide) (by decide) (by decide) (by decide)
     (by decide) (by decide) (by decide)⟩

theorem diceMatch_none_of_not_begins (s : List Char)
    (h : beginsWithDiceTerm s = false) : diceMatch s = none := by
  simp only [beginsWithDiceTerm] at h
  simp only [diceMatch]
  cases h1 : ((s.dropWhile isJsSpace).takeWhile jsDigit).isEmpty with
  | true => simp [h1]
  | false =>
    rw [h1] at h
    simp only [Bool.false_eq_true, if_false] at h ⊢
    cases h2 : (((s.dropWhile isJsSpace).dropWhile jsDigit).dropWhile isJsSpace) with
    | nil => rfl
    | cons c s4 =>
      rw [h2] at h
      cases h3 : (c == 'd' || c == 'D') with
      | false => simp [h3]
      | true =>
        simp only [h3, if_true] at h ⊢
        simp only [Bool.not_eq_false'] at h
        simp [h]

/-- C2: for every formula that does not begin with a leading dice term
and every nonzero integer offset, `scaleDiceFormula` appends the offset
as a flat bonus: the original formula, then " + ", then the offset. -/
theorem c2_append_offset (s : List Char) (a : Int) (ha : a ≠ 0)
    (h : beginsWithDiceTerm s = false) :
    scaleDiceFormula s (some a) = s ++ " + ".toList ++ (toString a).toList := by
  simp only [scaleDiceFormula, if_neg ha, diceMatch_none_of_not_begins s h]

/-- C2 witness: the formula "foo" with offset 2 becomes "foo + 2". -/
theorem c2_witness :
    ((2 : Int) ≠ 0 ∧ beginsWithDiceTerm "foo".toList = false) ∧
    scaleDiceFormula "foo".toList (some 2)
      = "foo".toList ++ " + ".toList ++ (toString (2 : Int)).toList :=
  ⟨by decide, c2_append_offset "foo".toList 2 (by decide) (by decide)⟩

/-- C3: `scaleDiceFormula` applied to the formula "1d8+2" with an
increment of 1 returns exactly "2d8+2". -/
theorem c3_example_formula :
    scaleDiceFormula "1d8+2".toList (some 1) = "2d8+2".toList := by
  decide

/-- C8: a zero offset is an identity for the rewrite, and so are the
nullish increments (`null` and `undefined`, modelled by `none`). -/
theorem c8_zero_identity (s : List Char) :
    scaleDiceFormula s (some 0) = s ∧ scaleDiceFormula s none = s := by
  constructor <;> simp [scaleDiceFormula]

theorem foldl_push_filter (q : α → Bool) (f : α → β) (l : List α) (acc : List β) :
    l.foldl (fun acc p => if q p then acc ++ [f p] else acc) acc
      = acc ++ (l.filter q).map f := by
  induction l generalizing acc with
  | nil => simp
  | cons a l ih =>
    by_cases hq : q a
    · simp [List.foldl_cons, List.filter_cons, hq, ih]
    · simp [List.foldl_cons, List.filter_cons, hq, ih]

/-- C4: `constructParts` returns exactly the entries of the damage parts
array whose position appears in the configured parts list of the chosen
group, in the original array order (a listed index matching no position
contributes nothing), and when that selection is empty it shows the host
notification and returns `false` (modelled by `none`). -/
theorem c4_constructParts (item : ItemModel) (idx : Nat) :
    constructParts item idx =
      if claimedSelection item idx = [] then none
      else some (claimedSelection item idx) := by
  simp only [constructParts, claimedSelection]
  rw [foldl_push_filter]
  simp only [List.nil_append, List.isEmpty_iff]

/-- C5: `rollDamageGroup` with no configured groups delegates to the
plain `rollDamage` with the same critical, event, spellLevel, versatile
and options arguments; with groups configured but the selected group
missing its parts list, or that list empty, it shows the host
notification and returns `null`. -/
theorem c5_rollDamageGroup (item : ItemModel) (a : RollArgs) :
    (item.config.groups = [] →
      rollDamageGroup item a
        = .plain a.critical a.event a.spellLevel a.versatile a.options) ∧
    (item.config.groups ≠ [] →
      ((item.config.groups[a.rollgroup]?).map RollGroup.parts = none ∨
        (item.config.groups[a.rollgroup]?).map RollGroup.parts = some []) →
      rollDamageGroup item a = .emptyGroupNull) := by
  constructor
  · intro h
    simp [rollDamageGroup, h]
  · intro h hsel
    have hne : item.config.groups.isEmpty = false := by
      simpa [List.isEmpty_iff] using h
    rcases hsel with h1 | h1 <;> simp [rollDamageGroup, hne, h1]

/-- C5 witness: an item with no groups delegates with the given
arguments, and an item whose only group has an empty parts list yields
the notification-and-null outcome. -/
theorem c5_witness :
    (⟨[], none, false, []⟩ : ModuleConfig).groups = [] ∧
    rollDamageGroup
      ⟨"weapon", none, [], false, false, false, none, none, none, ⟨[], none, false, []⟩⟩
      ⟨0, true, some 7, some 2, true, 5⟩
      = .plain true (some 7) (some 2) true 5 ∧
    (⟨[⟨"grp", []⟩], none, false, []⟩ : ModuleConfig).groups ≠ [] ∧
    rollDamageGroup
      ⟨"weapon", none, [], false, false, false, none, none, none,
        ⟨[⟨"grp", []⟩], none, false, []⟩⟩
      ⟨0, true, some 7, some 2, true, 5⟩
      = .emptyGroupNull :=
  ⟨rfl,
   (c5_rollDamageGroup _ _).1 rfl,
   by decide,
   (c5_rollDamageGroup _ _).2 (by decide) (Or.inr (by decide))⟩

/-- C6: `createDamageButtons` returns `null` exactly when no group is
configured or at most one damage part has a non-empty formula; in every
other case it returns the constructed buttons. -/
theorem c6_damageButtons_nullity (env : HostConfig) (item : ItemModel) :
    createDamageButtons env item = none ↔
      item.config.groups = [] ∨ (validParts item).length ≤ 1 := by
  constructor
  · intro hnone
    by_contra hcon
    push_neg at hcon
    obtain ⟨hg, hl⟩ := hcon
    have hpos : item.config.groups.length > 0 := List.length_pos.mpr hg
    simp [createDamageButtons, hpos] at hnone
    omega
  · intro h
    rcases h with h | h
    · simp [createDamageButtons, h]
    · simp [createDamageButtons]
      intro _
      omega

/-- C6 witness: the biconditional applied on the one side to an item
with no groups (buttons are `null`) and on the other side to an item
with one group and two valid parts (buttons are built). -/
theorem c6_witness :
    createDamageButtons ⟨["fire"], [], [], fun s => s, "dnd5e"⟩
      ⟨"weapon", none, [("1d6".toList, "fire"), ("2d4".toList, "fire")], false,
        true, false, none, none, none, ⟨[], none, false, []⟩⟩ = none ∧
    createDamageButtons ⟨["fire"], [], [], fun s => s, "dnd5e"⟩
      ⟨"weapon", none, [("1d6".toList, "fire"), ("2d4".toList, "fire")], false,
        true, false, none, none, none, ⟨[⟨"both", [0, 1]⟩], none, false, []⟩⟩ ≠ none :=
  ⟨(c6_damageButtons_nullity _ _).mpr (Or.inl rfl),
   fun h => by
     have := (c6_damageButtons_nullity
       ⟨["fire"], [], [], fun s => s, "dnd5e"⟩
       ⟨"weapon", none, [("1d6".toList, "fire"), ("2d4".toList, "fire")], false,
         true, false, none, none, none, ⟨[⟨"both", [0, 1]⟩], none, false, []⟩⟩).mp h
     revert this
     decide⟩

/-- C7 counterexample: the `renderChatMessage` handler
`createChatLogListeners` has no try/catch around its body, so when the
hook passes a truthy html argument without a `querySelectorAll` method
(such as a jQuery wrapper) the TypeError escapes to the host
application instead of being caught and logged. -/
theorem c7_counterexample :
    propagates (createChatLogListeners .jqueryLike) = true := rfl

/-- C7 (amended): the `preRollDamage` and `renderItemSheet` handlers wrap
their bodies in try/catch (logging via `Module.ID`) and never let an
exception propagate to the host. The `preDisplayCard` handler also has a
try/catch, but its catch block reads `this.ID` with `this` undefined
under unbound hook invocation: when the body completes (any non-nullish
data argument) the handler completes, but when the body throws (a
nullish data argument) the catch itself raises a TypeError that
propagates to the host instead of being logged. The `renderChatMessage`
handler has no try/catch at all (see the counterexample), though it
completes normally on a nullish or element html argument. -/
theorem c7_amended (env : HostConfig) (item : ItemModel) (d : CardData)
    (html : SheetHtml) (vitem : Option VItem) (n1 n2 n3 : Nat) :
    propagates (createConfigButton html) = false ∧
    propagates (variantDamageLabels env vitem) = false ∧
    propagates (manageCardButtons env item (some d)) = false ∧
    propagates (manageCardButtons env item none) = true ∧
    propagates (createChatLogListeners .nullish) = false ∧
    propagates (createChatLogListeners (.element n1 n2 n3)) = false := by
  refine ⟨?_, ?_, ?_, rfl, rfl, rfl⟩
  · cases hn : normalizeHtml html with
    | none => simp [createConfigButton, createConfigButtonBody, hn, runCaught, propagates]
    | some pr =>
      cases pr
      simp [createConfigButton, createConfigButtonBody, hn, runCaught, propagates]
  · cases vitem <;>
      simp [variantDamageLabels, variantDamageLabelsBody, runCaught, propagates,
        Except.map]
  · simp [manageCardButtons, manageCardButtonsBody, runBrokenCatch, propagates]

/-- C9 counterexample: a cantrip with first part "1d8" of type fire, and
an actor whose details carry no level but a spellLevel of 11. The code
scales by floor((11 + 1) / 6) = 2 and returns "3d8", while the claim
(level defaulting to 1 when absent) requires scaling by
floor((1 + 1) / 6) = 0, which would leave "1d8". -/
theorem c9_counterexample :
    scaleCantripDamage
      (some ⟨"spell", some 0, [("1d8".toList, "fire")], false, true, false,
        none, none, none, ⟨[], none, false, []⟩⟩)
      (some ⟨none, some 11⟩)
      = (["3d8".toList], some "fire") ∧
    (["3d8".toList], (some "fire" : Option String)) ≠
      ([scaleDiceFormula "1d8".toList (some (Int.fdiv ((1 : Int) + 1) 6))],
        some "fire") := by
  decide

/-- C9 (amended): `scaleCantripDamage` uses only the first damage part:
with no damage parts (or no cantrip) it returns the empty parts list and
a null type, and otherwise it returns the first formula rewritten by
`scaleDiceFormula` with increment floor((L + 1) / 6) together with the
first part damage type, where L is the actor level, falling back first
to the actor spellLevel and then to 1. -/
theorem c9_amended (cantrip : Option ItemModel) (actor : Option ActorDetails) :
    ((cantrip.map ItemModel.damageParts = none ∨
      cantrip.map ItemModel.damageParts = some []) →
      scaleCantripDamage cantrip actor = ([], none)) ∧
    (∀ p ps, cantrip.map ItemModel.damageParts = some (p :: ps) →
      scaleCantripDamage cantrip actor =
        ([scaleDiceFormula p.1
            (some (Int.fdiv ((((actor.bind ActorDetails.level).orElse
              (fun _ => actor.bind ActorDetails.spellLevel)).getD 1) + 1) 6))],
          some p.2)) := by
  constructor
  · intro h
    rcases h with h | h <;> simp [scaleCantripDamage, h]
  · intro p ps h
    simp [scaleCantripDamage, h]

/-- C9 witness: the amended theorem applied to a cantrip with first part
"1d10" of type cold and a missing actor: the level defaults to 1, the
increment is 0, and the part is returned unchanged. -/
theorem c9_witness :
    (some ⟨"spell", some 0, [("1d10".toList, "cold")], false, true, false,
        none, none, none, ⟨[], none, false, []⟩⟩ : Option ItemModel).map
      ItemModel.damageParts = some [("1d10".toList, "cold")] ∧
    scaleCantripDamage
      (some ⟨"spell", some 0, [("1d10".toList, "cold")], false, true, false,
        none, none, none, ⟨[], none, false, []⟩⟩)
      none
      = (["1d10".toList], some "cold") :=
  ⟨rfl, by
    have := (c9_amended
      (some ⟨"spell", some 0, [("1d10".toList, "cold")], false, true, false,
        none, none, none, ⟨[], none, false, []⟩⟩)
      none).2 ("1d10".toList, "cold") [] rfl
    rw [this]
    decide⟩

/-- C10 counterexample: with abilities dex and con configured on the
host, an item whose own save ability is con and whose configured saves
list is ["dex", "dex"] produces two buttons for the single surviving
ability key dex, contradicting the claim of exactly one button per
surviving ability key; and a configured saves list ["toString"] yields
a button for the inherited Object.prototype name toString (its label
read as undefined), contradicting the claim that no button is produced
for a key absent from the host abilities configuration and that the
return is null when no configured extra ability survives. -/
theorem c10_counterexample :
    createSaveButtons
      ⟨[], [], [("dex", "Dexterity"), ("con", "Constitution")], fun s => s, "dnd5e"⟩
      ⟨"feat", none, [], false, false, true, some "con", none, none,
        ⟨[], none, false, ["dex", "dex"]⟩⟩
      = some [⟨"dex", 10, some "Dexterity"⟩, ⟨"dex", 10, some "Dexterity"⟩] ∧
    ((createSaveButtons
      ⟨[], [], [("dex", "Dexterity"), ("con", "Constitution")], fun s => s, "dnd5e"⟩
      ⟨"feat", none, [], false, false, true, some "con", none, none,
        ⟨[], none, false, ["dex", "dex"]⟩⟩).getD []).countP
        (fun b => b.ability == "dex") ≠ 1 ∧
    createSaveButtons
      ⟨[], [], [("dex", "Dexterity"), ("con", "Constitution")], fun s => s, "dnd5e"⟩
      ⟨"feat", none, [], false, false, true, some "con", none, none,
        ⟨[], none, false, ["toString"]⟩⟩
      = some [⟨"toString", 10, none⟩] := by
  refine ⟨by decide, by decide, by decide⟩

/-- C10 (amended): `createSaveButtons` returns `null` when the item has
no save or when no entry of the configured saves list survives the
filter; otherwise it returns one button per surviving entry of the
configured list (a duplicated entry yields duplicated buttons); no
button ever carries the item own save ability, and every button key is
either an own key of the host abilities configuration or one of the
property names a plain object inherits from Object.prototype (the JS
`in` check also admits those, with an undefined button label). -/
theorem c10_saveButtons (env : HostConfig) (item : ItemModel) :
    (item.hasSave = false → createSaveButtons env item = none) ∧
    (filteredSaves env item = [] → createSaveButtons env item = none) ∧
    (∀ l, createSaveButtons env item = some l →
      l.map SaveButton.ability = filteredSaves env item ∧ l ≠ [] ∧
      ∀ b ∈ l, some b.ability ≠ item.saveAbility ∧
        ((∃ kv ∈ env.abilities, kv.1 = b.ability) ∨
          b.ability ∈ objectPrototypeKeys)) := by
  refine ⟨?_, ?_, ?_⟩
  · intro h
    simp [createSaveButtons, h]
  · intro h
    simp [createSaveButtons, h]
  · intro l hl
    by_cases h : item.hasSave
    · by_cases hf : filteredSaves env item = []
      · simp [createSaveButtons, h, hf] at hl
      · have hne : (filteredSaves env item).isEmpty = false := by
          simpa [List.isEmpty_iff] using hf
        simp only [createSaveButtons, h, Bool.not_true, Bool.false_eq_true, if_false,
          hne, Option.some.injEq] at hl
        subst hl
        refine ⟨?_, ?_, ?_⟩
        · simp [List.map_map, Function.comp_def]
        · simpa using hf
        · intro b hb
          simp only [List.mem_map] at hb
          obtain ⟨abi, habi, rfl⟩ := hb
          simp only [filteredSaves, List.mem_filter, Bool.and_eq_true, Bool.or_eq_true,
            decide_eq_true_eq, List.any_eq_true, beq_iff_eq] at habi
          obtain ⟨-, hne2, hin⟩ := habi
          refine ⟨hne2, ?_⟩
          rcases hin with ⟨kv, hkv, hkeq⟩ | hproto
          · exact Or.inl ⟨kv, hkv, hkeq⟩
          · exact Or.inr (by simpa using hproto)
    · simp [createSaveButtons, h] at hl

/-- C10 witness: the amended theorem applied to an item without a save
(buttons are `null`) and to an item with one surviving configured save
(one button, for dex, which is neither the item save ability con nor
absent from the host abilities). -/
theorem c10_witness :
    (⟨"feat", none, [], false, false, false, none, none, none,
        ⟨[], none, false, ["dex"]⟩⟩ : ItemModel).hasSave = false ∧
    createSaveButtons
      ⟨[], [], [("dex", "Dexterity"), ("con", "Constitution")], fun s => s, "dnd5e"⟩
      ⟨"feat", none, [], false, false, false, none, none, none,
        ⟨[], none, false, ["dex"]⟩⟩ = none ∧
    createSaveButtons
      ⟨[], [], [("dex", "Dexterity"), ("con", "Constitution")], fun s => s, "dnd5e"⟩
      ⟨"feat", none, [], false, false, true, some "con", none, none,
        ⟨[], none, false, ["dex"]⟩⟩ = some [⟨"dex", 10, some "Dexterity"⟩] ∧
    ([(⟨"dex", 10, some "Dexterity"⟩ : SaveButton)].map SaveButton.ability
      = filteredSaves
          ⟨[], [], [("dex", "Dexterity"), ("con", "Constitution")], fun s => s, "dnd5e"⟩
          ⟨"feat", none, [], false, false, true, some "con", none, none,
            ⟨[], none, false, ["dex"]⟩⟩) :=
  ⟨rfl,
   (c10_saveButtons _ _).1 rfl,
   by decide,
   ((c10_saveButtons
      ⟨[], [], [("dex", "Dexterity"), ("con", "Constitution")], fun s => s, "dnd5e"⟩
      ⟨"feat", none, [], false, false, true, some "con", none, none,
        ⟨[], none, false, ["dex"]⟩⟩).2.2
      [⟨"dex", 10, some "Dexterity"⟩] (by decide)).1⟩

end RollGroups
